import Mathlib

/-!
Verification of the Meter-Schedule application (src/app.py) against its
natural-language specification.

Shallow embedding conventions:
* Python `str` values are modelled as `List Char` (`PyStr`); Python compares
  strings code point by code point, which is exactly the lexicographic order
  on `List Char` induced by `Char` order.
* Python `datetime.date` is modelled as the structure `PyDate` of
  year/month/day naturals; Python orders dates chronologically, which on
  valid dates is the lexicographic order on (year, month, day) — see `dkey`.
  Where day-level arithmetic and weekday are needed (`week_bounds`), a date
  is represented by its proleptic Gregorian ordinal (`toOrdinal`,
  CPython `date.toordinal`), on which `timedelta` addition and subtraction
  act as plain integer arithmetic and `date.weekday()` is
  `(ordinal + 6) % 7`.
* Fallible Python code (exceptions caught and turned into `None`) is
  modelled with `Option`.
-/

/-- Python strings as lists of characters (code points). -/
abbrev PyStr := List Char

/-- Coerce a Lean string literal to the `PyStr` model. -/
def pyS (s : String) : PyStr := s.data

/-- ASCII whitespace recognised by Python `str.strip()`.
(CPython also strips some further Unicode whitespace; none of it can occur
in the form data relevant here.) -/
def pyIsSpace (c : Char) : Bool :=
  c = ' ' || c = '\t' || c = '\n' || c = '\r' || c = '\x0b' || c = '\x0c'

/-- Python `str.strip()`: remove leading and trailing whitespace. -/
def pyStrip (s : PyStr) : PyStr :=
  ((s.dropWhile pyIsSpace).reverse.dropWhile pyIsSpace).reverse

/-- Python `s.split(sep)` for a one-character separator `sep`:
`"".split("-") = [""]`, empty pieces are kept. -/
def splitOnChar (sep : Char) (s : PyStr) : List PyStr :=
  s.foldr
    (fun c acc =>
      if c = sep then [] :: acc
      else
        match acc with
        | h :: t => (c :: h) :: t
        | [] => [[c]])
    [[]]

/-- Python `int(x)` on a string: optional surrounding whitespace, optional
sign, then a nonempty digit run; anything else raises (modelled as `none`).
(CPython additionally allows underscore digit grouping and Unicode digits;
neither is exercised by any claim.) -/
def pyInt (s : PyStr) : Option Int :=
  let t := pyStrip s
  match t with
  | [] => none
  | c :: rest =>
    let signed : Bool × PyStr :=
      if c = '-' then (true, rest) else if c = '+' then (false, rest) else (false, t)
    let ds := signed.2
    if ds.isEmpty || !ds.all Char.isDigit then none
    else
      let n : Nat := ds.foldl (fun acc ch => acc * 10 + (ch.toNat - 48)) 0
      some (if signed.1 then -(n : Int) else (n : Int))

/-- Python `datetime.date`: a year/month/day triple. -/
structure PyDate where
  year : Nat
  month : Nat
  day : Nat
deriving DecidableEq, Repr

/-- Python `calendar.isleap(y)`. -/
def isleap (y : Nat) : Bool :=
  y % 4 = 0 && (y % 100 != 0 || y % 400 = 0)

/-- `calendar.monthrange(y, m)[1]`: number of days of month `m` of year `y`. -/
def daysInMonth (y m : Nat) : Nat :=
  if m = 2 then (if isleap y then 29 else 28)
  else if m = 4 ∨ m = 6 ∨ m = 9 ∨ m = 11 then 30
  else 31

/-- The range checks of the `datetime.date` constructor
(`MINYEAR = 1`, `MAXYEAR = 9999`, `1 ≤ month ≤ 12`,
`1 ≤ day ≤ days_in_month`). -/
def validDate (dt : PyDate) : Prop :=
  1 ≤ dt.year ∧ dt.year ≤ 9999 ∧ 1 ≤ dt.month ∧ dt.month ≤ 12 ∧
    1 ≤ dt.day ∧ dt.day ≤ daysInMonth dt.year dt.month

instance (dt : PyDate) : Decidable (validDate dt) :=
  inferInstanceAs (Decidable (_ ∧ _))

/-- The `datetime.date(y, m, d)` constructor: range-checks its arguments and
raises on violation (modelled as `none`). -/
def makeDate (y m d : Int) : Option PyDate :=
  if 1 ≤ y ∧ y ≤ 9999 ∧ 1 ≤ m ∧ m ≤ 12 ∧ 1 ≤ d ∧
      d ≤ (daysInMonth y.toNat m.toNat : Int) then
    some ⟨y.toNat, m.toNat, d.toNat⟩
  else none

/-- `parse_ymd` (app.py:48-56): strip, fail on empty, split on `-`, convert
the pieces with `int`, require exactly three, build a `date`; any failure
(raised exception in the source) yields `none`. -/
def parse_ymd (s : PyStr) : Option PyDate :=
  let t := pyStrip s
  if t = [] then none
  else
    match (splitOnChar '-' t).map pyInt with
    | [some y, some m, some d] => makeDate y m d
    | _ => none

/-- `add_months` (app.py:58-63): advance by a month count, clamping the day
to the last day of the target month. -/
def add_months (d : PyDate) (months : Nat) : PyDate :=
  let m0 := d.month - 1 + months
  let y := d.year + m0 / 12
  let m := m0 % 12 + 1
  let last_day := daysInMonth y m
  ⟨y, m, min d.day last_day⟩

/-- `FREQ_MONTHS` (app.py:35), the dict modelled as a lookup function
(`FREQ_MONTHS.get`). -/
def FREQ_MONTHS (s : PyStr) : Option Nat :=
  if s = pyS "Monthly" then some 1
  else if s = pyS "Quarterly" then some 3
  else if s = pyS "Semiannual" then some 6
  else if s = pyS "Annual" then some 12
  else none

/-- `compute_next` (app.py:65-69).  Python truthiness: a `date` is always
truthy, so `not last_test` means `last_test is None`; `not freq` means
`freq` is `None` or the empty string; `add_months(...) if months else None`
is falsy for `months = None` and for `months = 0`. -/
def compute_next (last_test : Option PyDate) (freq : Option PyStr) : Option PyDate :=
  match last_test with
  | none => none
  | some d =>
    match freq with
    | none => none
    | some f =>
      if f = [] ∨ f = pyS "Out of Service" then none
      else
        match FREQ_MONTHS f with
        | none => none
        | some months => if months = 0 then none else some (add_months d months)

/-- CPython `datetime._days_before_year`. -/
def days_before_year (year : Nat) : Nat :=
  let y := year - 1
  y * 365 + y / 4 - y / 100 + y / 400

/-- CPython `datetime._days_before_month`: days of year `y` preceding
month `m`. -/
def days_before_month (y m : Nat) : Nat :=
  (List.range (m - 1)).foldl (fun acc i => acc + daysInMonth y (i + 1)) 0

/-- CPython `date.toordinal()`: day number in the proleptic Gregorian
calendar, day 1 being January 1 of year 1. -/
def toOrdinal (dt : PyDate) : Nat :=
  days_before_year dt.year + days_before_month dt.year dt.month + dt.day

/-- CPython `date.weekday()`: `(toordinal + 6) % 7`, Monday = 0,
acting on the ordinal representation. -/
def pyWeekday (o : Nat) : Nat := (o + 6) % 7

/-- `week_bounds` (app.py:71-75) on the ordinal representation of dates:
`today = ref or date.today()` (a `date` is always truthy, so this is
`ref` when given, else today), `start = today - timedelta(days=today.weekday())`,
`end = start + timedelta(days=6)`. -/
def week_bounds (todayOrd : Nat) (ref : Option Nat) : Nat × Nat :=
  let today := ref.getD todayOrd
  let start := today - pyWeekday today
  (start, start + 6)

/-- The schedule-relevant columns of the `meters` table (app.py:95-119).
`frequency` is stored as `none` when unset (the routes store
`f.get("frequency") or None`). -/
structure Meter where
  meter_name : PyStr
  flow_cal_id : Option PyStr
  purchaser_name : Option PyStr
  purchaser_meter_id : Option PyStr
  meter_type : Option PyStr
  meter_address : Option PyStr
  serial_number : Option PyStr
  tube_serial_number : Option PyStr
  tube_size : Option PyStr
  orifice_plate_size : Option PyStr
  h2s_ppm : Option PyStr
  notes : Option PyStr
  last_test_date : Option PyDate
  next_inspection : Option PyDate
  frequency : Option PyStr
deriving DecidableEq

/-- A `meter_history` row (app.py:121-129); the `id` and `created_at`
columns play no part in any claim. -/
structure MeterHistory where
  event_date : PyDate
  h2s_ppm : Option PyStr
  notes : Option PyStr
  created_via : PyStr
deriving DecidableEq

/-- Python `x or None` on a form string: the empty string becomes `None`. -/
def orNone (s : PyStr) : Option PyStr :=
  if s = [] then none else some s

/-- The fields of the meter add/edit form.  A field absent from the posted
form reads as the empty string (the routes use `f.get(name) or None` /
`f.get(name, "")`); `hist_add` models the `"hist_add" in f` checkbox
test. -/
structure MeterForm where
  meter_name : PyStr
  flow_cal_id : PyStr
  purchaser_name : PyStr
  purchaser_meter_id : PyStr
  meter_type : PyStr
  meter_address : PyStr
  serial_number : PyStr
  tube_serial_number : PyStr
  tube_size : PyStr
  orifice_plate_size : PyStr
  h2s_ppm : PyStr
  notes : PyStr
  frequency : PyStr
  last_test_date : PyStr
  hist_add : Bool
deriving DecidableEq

/-- Result of the `add_meter` route: the created meter (if any), the
optional history row, and the error flash (if any).  The success flash
message is not modelled; `error = none` means no failure was reported. -/
structure AddResult where
  meter : Option Meter
  hist : Option MeterHistory
  error : Option PyStr
deriving DecidableEq

/-- `add_meter` (app.py:943-980): parse the last-test date, compute the
next inspection, refuse an empty (stripped) meter name, create the meter,
and append a `manual` history row only when the checkbox was set and the
submitted date parsed. -/
def add_meter (f : MeterForm) : AddResult :=
  let last := parse_ymd f.last_test_date
  let freq := orNone f.frequency
  let next_calc := compute_next last freq
  let name := pyStrip f.meter_name
  if name = [] then
    { meter := none, hist := none, error := some (pyS "Meter Name is required.") }
  else
    let m : Meter :=
      { meter_name := name
        flow_cal_id := orNone f.flow_cal_id
        purchaser_name := orNone f.purchaser_name
        purchaser_meter_id := orNone f.purchaser_meter_id
        meter_type := orNone f.meter_type
        meter_address := orNone f.meter_address
        serial_number := orNone f.serial_number
        tube_serial_number := orNone f.tube_serial_number
        tube_size := orNone f.tube_size
        orifice_plate_size := orNone f.orifice_plate_size
        h2s_ppm := orNone f.h2s_ppm
        notes := orNone f.notes
        frequency := freq
        last_test_date := last
        next_inspection := next_calc }
    let hist : Option MeterHistory :=
      if f.hist_add then
        match last with
        | some ev =>
          some { event_date := ev, h2s_ppm := m.h2s_ppm, notes := m.notes,
                 created_via := pyS "manual" }
        | none => none
      else none
    { meter := some m, hist := hist, error := none }

/-- `edit_meter` (app.py:982-1011), POST branch: overwrite the text fields,
reparse the last-test date, recompute `next_inspection` from the new
`last_test_date` and `frequency`, and append an `edit` history row only
when the checkbox was set and the new date parsed.  The route always
flashes success; no error path exists, so none is modelled. -/
def edit_meter (m : Meter) (f : MeterForm) : Meter × Option MeterHistory :=
  let name := pyStrip f.meter_name
  let new_last := parse_ymd f.last_test_date
  let m' : Meter :=
    { meter_name := if name = [] then m.meter_name else name
      flow_cal_id := orNone f.flow_cal_id
      purchaser_name := orNone f.purchaser_name
      purchaser_meter_id := orNone f.purchaser_meter_id
      meter_type := orNone f.meter_type
      meter_address := orNone f.meter_address
      serial_number := orNone f.serial_number
      tube_serial_number := orNone f.tube_serial_number
      tube_size := orNone f.tube_size
      orifice_plate_size := orNone f.orifice_plate_size
      h2s_ppm := orNone f.h2s_ppm
      notes := orNone f.notes
      frequency := orNone f.frequency
      last_test_date := new_last
      next_inspection := compute_next new_last (orNone f.frequency) }
  let hist : Option MeterHistory :=
    if f.hist_add then
      match new_last with
      | some ev =>
        some { event_date := ev, h2s_ppm := m'.h2s_ppm, notes := m'.notes,
               created_via := pyS "edit" }
      | none => none
    else none
  (m', hist)

/-- `mark_tested_today` (app.py:1022-1060): strip the three form inputs,
overwrite H2S only when a nonempty value was supplied, set the last-test
date to today, recompute the next inspection from today and the (unchanged)
frequency, and append exactly one `mark_tested` history row with the
composed note. -/
def mark_tested_today (m : Meter) (today : PyDate)
    (new_h2s_in reason_in note_in : PyStr) : Meter × MeterHistory :=
  let new_h2s := pyStrip new_h2s_in
  let reason := pyStrip reason_in
  let note_in := pyStrip note_in
  let m1 := if new_h2s ≠ [] then { m with h2s_ppm := some new_h2s } else m
  let m2 := { m1 with last_test_date := some today,
                      next_inspection := compute_next (some today) m1.frequency }
  let parts : List PyStr :=
    (if reason ≠ [] ∧ reason ≠ pyS "—" then [reason] else []) ++
      (if note_in ≠ [] then [note_in] else [])
  let parts :=
    if parts = [] then
      [pyS "Marked tested" ++ (if new_h2s ≠ [] then [] else pyS " (no H2S sample)")]
    else parts
  let hist_note := List.intercalate (pyS " — ") parts
  let hist_h2s := if new_h2s ≠ [] then some new_h2s else none
  (m2, { event_date := today, h2s_ppm := hist_h2s, notes := some hist_note,
         created_via := pyS "mark_tested" })

/-- `add_history` (app.py:830-847): parse the event date; on failure flash
an error and change nothing; otherwise append one `manual` row.  The meter
row itself is never touched. -/
def add_history (m : Meter) (hist : List MeterHistory)
    (event_date_s h2s_s notes_s : PyStr) :
    Meter × List MeterHistory × Option PyStr :=
  match parse_ymd event_date_s with
  | none => (m, hist, some (pyS "Event date is required (YYYY-MM-DD)."))
  | some ev =>
    (m, hist ++ [{ event_date := ev, h2s_ppm := orNone h2s_s,
                   notes := orNone notes_s, created_via := pyS "manual" }], none)

/-- `delete_history` (app.py:849-856): remove one history row; the meter
row itself is never touched. -/
def delete_history (m : Meter) (hist : List MeterHistory) (i : Nat) :
    Meter × List MeterHistory :=
  (m, hist.eraseIdx i)

/-- Chronological key of a Python `date`: dates compare chronologically,
which for valid dates is the lexicographic order on (year, month, day). -/
abbrev DateKey := Lex (Nat × Lex (Nat × Nat))

/-- The chronological key of a date. -/
def dkey (d : PyDate) : DateKey := toLex (d.year, toLex (d.month, d.day))

/-- Python `a < b` on dates. -/
def dateLt (a b : PyDate) : Prop := dkey a < dkey b

/-- Python `a <= b` on dates. -/
def dateLe (a b : PyDate) : Prop := dkey a ≤ dkey b

instance (a b : PyDate) : Decidable (dateLt a b) :=
  inferInstanceAs (Decidable (dkey a < dkey b))

instance (a b : PyDate) : Decidable (dateLe a b) :=
  inferInstanceAs (Decidable (dkey a ≤ dkey b))

/-- One row of the due/overdue query of `home` / `due`
(app.py:791-800, 809-818): a meter joined with its battery and field
names.  `id` is the database primary key (rendered in the edit /
mark-tested links of the due tables), so the order of rows is observable
output. -/
structure MeterRow where
  id : Nat
  field_name : PyStr
  battery_name : PyStr
  meter_name : PyStr
  frequency : Option PyStr
  next_inspection : Option PyDate
  h2s_ppm : Option PyStr
deriving DecidableEq

/-- The SQL filter of the due query (app.py:793-796):
`frequency IS NOT NULL`, `frequency != "Out of Service"`,
`next_inspection IS NOT NULL`, `next_inspection <= week_end`. -/
def duePass (week_end : PyDate) (m : MeterRow) : Bool :=
  m.frequency.isSome &&
  decide (m.frequency ≠ some (pyS "Out of Service")) &&
  (match m.next_inspection with
   | none => false
   | some d => decide (dateLe d week_end))

/-- The Python sort key of app.py:798:
`(m.battery.field.name, m.battery.name, m.next_inspection, m.meter_name)`,
compared lexicographically (tuple comparison), names case-sensitively by
code point.  On the filtered rows `next_inspection` is never null; the
`none` branch is unreachable there. -/
def mkey (m : MeterRow) : Lex (PyStr × Lex (PyStr × Lex (DateKey × PyStr))) :=
  toLex (m.field_name,
    toLex (m.battery_name,
      toLex ((match m.next_inspection with
              | some d => dkey d
              | none => toLex (0, toLex (0, 0))), m.meter_name)))

/-- The (non-strict) sort order on due rows. -/
def rowLe (a b : MeterRow) : Prop := mkey a ≤ mkey b

/-- The strict sort order on due rows. -/
def rowLt (a b : MeterRow) : Prop := mkey a < mkey b

instance : DecidableRel rowLe :=
  fun a b => inferInstanceAs (Decidable (mkey a ≤ mkey b))

instance : IsTotal MeterRow rowLe := ⟨fun a b => le_total (mkey a) (mkey b)⟩

instance : IsTrans MeterRow rowLe := ⟨fun _ _ _ hab hbc => le_trans hab hbc⟩

instance : IsAntisymm MeterRow rowLt :=
  ⟨fun _ _ h h' => absurd (lt_trans h h') (lt_irrefl _)⟩

/-- `due_all` (app.py:797-798): filter, then `sorted(...)` by `mkey`.
Python `sorted` is a stable sort by key; stable sorting is extensionally
unique, so it is modelled by insertion sort (`List.insertionSort`, which
is stable: `orderedInsert` places an element before the equal-key elements
already sorted behind it). -/
def due_all (meters : List MeterRow) (week_end : PyDate) : List MeterRow :=
  List.insertionSort rowLe (meters.filter (duePass week_end))

/-- `overdue` (app.py:799): the sorted rows with
`next_inspection < week_start`.  In the source the comprehension reads
`m.next_inspection` directly (never null after the filter); the `none`
branch is unreachable. -/
def overdue_list (meters : List MeterRow) (week_start week_end : PyDate) :
    List MeterRow :=
  (due_all meters week_end).filter fun m =>
    match m.next_inspection with
    | some d => decide (dateLt d week_start)
    | none => false

/-- `due_week` (app.py:800): the sorted rows with
`week_start <= next_inspection <= week_end`. -/
def due_week_list (meters : List MeterRow) (week_start week_end : PyDate) :
    List MeterRow :=
  (due_all meters week_end).filter fun m =>
    match m.next_inspection with
    | some d => decide (dateLe week_start d) && decide (dateLe d week_end)
    | none => false

/-- The claim-side description of the considered set (spec section 4.5):
frequency set, not Out of Service, next inspection present and at most
`week_end`. -/
def considered (week_end : PyDate) (m : MeterRow) : Prop :=
  m.frequency ≠ none ∧ m.frequency ≠ some (pyS "Out of Service") ∧
    ∃ d, m.next_inspection = some d ∧ dateLe d week_end

/-! Concrete instances used by witnesses and counterexamples. -/

/-- A form with every field empty and the checkbox clear. -/
def emptyForm : MeterForm :=
  { meter_name := [], flow_cal_id := [], purchaser_name := [],
    purchaser_meter_id := [], meter_type := [], meter_address := [],
    serial_number := [], tube_serial_number := [], tube_size := [],
    orifice_plate_size := [], h2s_ppm := [], notes := [], frequency := [],
    last_test_date := [], hist_add := false }

/-- A sample stored meter. -/
def m0 : Meter :=
  { meter_name := pyS "W-101", flow_cal_id := none, purchaser_name := none,
    purchaser_meter_id := none, meter_type := none, meter_address := none,
    serial_number := none, tube_serial_number := none, tube_size := none,
    orifice_plate_size := none, h2s_ppm := some (pyS "7"), notes := none,
    last_test_date := some ⟨2025, 11, 3⟩, next_inspection := some ⟨2025, 12, 3⟩,
    frequency := some (pyS "Monthly") }

/-- A sample transition date (a Monday). -/
def d0 : PyDate := ⟨2026, 10, 12⟩

/-- Week bounds fixture: Monday 2026-02-02. -/
def ws0 : PyDate := ⟨2026, 2, 2⟩

/-- Week bounds fixture: Sunday 2026-02-08. -/
def we0 : PyDate := ⟨2026, 2, 8⟩

/-- Classifier fixture: next inspection the day before `ws0` (overdue). -/
def q1 : MeterRow :=
  ⟨1, pyS "F", pyS "B", pyS "A-1", some (pyS "Monthly"), some ⟨2026, 2, 1⟩, none⟩

/-- Classifier fixture: next inspection two days into the week (due). -/
def q2 : MeterRow :=
  ⟨2, pyS "F", pyS "B", pyS "A-2", some (pyS "Monthly"), some ⟨2026, 2, 4⟩, none⟩

/-- Classifier fixture: next inspection five days past `we0` (excluded). -/
def q3 : MeterRow :=
  ⟨3, pyS "F", pyS "B", pyS "A-3", some (pyS "Monthly"), some ⟨2026, 2, 13⟩, none⟩

/-- Two overdue rows that agree on the whole sort key
(field, battery, next inspection, meter name) and differ only in `id`. -/
def r1 : MeterRow :=
  ⟨1, pyS "F", pyS "B", pyS "M", some (pyS "Monthly"), some ⟨2026, 1, 5⟩, none⟩

/-- Same sort key as `r1`, different database id. -/
def r2 : MeterRow :=
  ⟨2, pyS "F", pyS "B", pyS "M", some (pyS "Monthly"), some ⟨2026, 1, 5⟩, none⟩

/-- A meter-add/edit form with a parseable last-test date and the
history checkbox set. -/
def f1 : MeterForm :=
  { emptyForm with meter_name := pyS "M1", frequency := pyS "Monthly",
                   last_test_date := pyS "2026-01-05", hist_add := true }

/-- A form with an unparseable last-test date and the checkbox set. -/
def f2 : MeterForm :=
  { emptyForm with meter_name := pyS "M2", frequency := pyS "Monthly",
                   last_test_date := pyS "2026-13-05", hist_add := true }

/-! Helper lemmas (shared between claims). -/

/-- Every date produced by the `date` constructor satisfies its range
checks. -/
theorem makeDate_valid {y m d : Int} {dt : PyDate}
    (h : makeDate y m d = some dt) : validDate dt := by
  unfold makeDate at h
  split at h
  · rename_i hg
    obtain ⟨h1, h2, h3, h4, h5, h6⟩ := hg
    injection h with h'
    subst h'
    refine ⟨?_, ?_, ?_, ?_, ?_, ?_⟩ <;> simp only [validDate] <;> omega
  · exact Option.noConfusion h

/-- An unrecognised frequency string yields no next inspection. -/
theorem compute_next_unknown (lt : Option PyDate) (s : PyStr)
    (h : FREQ_MONTHS s = none) : compute_next lt (some s) = none := by
  cases lt with
  | none => rfl
  | some d =>
    show (if s = [] ∨ s = pyS "Out of Service" then none
          else match FREQ_MONTHS s with
               | none => none
               | some months => if months = 0 then none
                                else some (add_months d months)) = none
    split
    · rfl
    · rw [h]

/-- Case analysis of the frequency table. -/
theorem FREQ_MONTHS_cases {s : PyStr} {k : Nat} (h : FREQ_MONTHS s = some k) :
    (s = pyS "Monthly" ∧ k = 1) ∨ (s = pyS "Quarterly" ∧ k = 3) ∨
      (s = pyS "Semiannual" ∧ k = 6) ∨ (s = pyS "Annual" ∧ k = 12) := by
  unfold FREQ_MONTHS at h
  split_ifs at h with h1 h2 h3 h4 <;> simp_all

/-- Advancing a date with month ≥ 1 by at least one month yields a
strictly later date. -/
theorem add_months_lt (d : PyDate) (k : Nat) (hm : 1 ≤ d.month)
    (hk : 1 ≤ k) : dateLt d (add_months d k) := by
  unfold dateLt dkey add_months
  simp only [Prod.Lex.lt_iff]
  omega

/-- Claim C3: `compute_next(last_test, frequency)` returns `None` whenever
`last_test` is `None`, or `frequency` is `None` or empty, or `frequency`
equals "Out of Service", or `frequency` is not one of
Monthly/Quarterly/Semiannual/Annual; otherwise it returns `last_test`
advanced by the mapped month count (Monthly→1, Quarterly→3, Semiannual→6,
Annual→12) via the clamping month addition. -/
theorem C3_compute_next_spec :
    (∀ f, compute_next none f = none) ∧
    (∀ lt, compute_next lt none = none) ∧
    (∀ lt, compute_next lt (some (pyS "")) = none) ∧
    (∀ lt, compute_next lt (some (pyS "Out of Service")) = none) ∧
    (∀ lt s, FREQ_MONTHS s = none → compute_next lt (some s) = none) ∧
    (∀ d, compute_next (some d) (some (pyS "Monthly")) = some (add_months d 1)) ∧
    (∀ d, compute_next (some d) (some (pyS "Quarterly")) = some (add_months d 3)) ∧
    (∀ d, compute_next (some d) (some (pyS "Semiannual")) = some (add_months d 6)) ∧
    (∀ d, compute_next (some d) (some (pyS "Annual")) = some (add_months d 12)) := by
  refine ⟨fun f => rfl, ?_, ?_, ?_, compute_next_unknown,
    fun d => rfl, fun d => rfl, fun d => rfl, fun d => rfl⟩
  · intro lt; cases lt <;> rfl
  · intro lt; cases lt <;> rfl
  · intro lt; cases lt <;> rfl

/-- Witness for C3: a frequency string outside the table yields no next
inspection at a concrete date. -/
theorem C3_compute_next_spec_witness :
    FREQ_MONTHS (pyS "Weekly") = none ∧
      compute_next (some ⟨2024, 3, 15⟩) (some (pyS "Weekly")) = none :=
  ⟨by decide,
    C3_compute_next_spec.2.2.2.2.1 (some ⟨2024, 3, 15⟩) (pyS "Weekly") (by decide)⟩

/-- Claim C4: for every date and every month count, `add_months` lands in
the year and month obtained by adding the count to the zero-based month
index with carry into the year, with the day clamped to
`min(day, last day of the target month)`; in particular
2024-01-31 + 1 month = 2024-02-29 and 2023-01-31 + 1 month = 2023-02-28,
and the clamped result is always a well-formed day of a month 1..12. -/
theorem C4_add_months_clamp :
    (∀ (d : PyDate) (months : Nat),
      add_months d months =
        { year := d.year + (d.month - 1 + months) / 12,
          month := (d.month - 1 + months) % 12 + 1,
          day := min d.day
            (daysInMonth (d.year + (d.month - 1 + months) / 12)
              ((d.month - 1 + months) % 12 + 1)) }) ∧
    add_months ⟨2024, 1, 31⟩ 1 = ⟨2024, 2, 29⟩ ∧
    add_months ⟨2023, 1, 31⟩ 1 = ⟨2023, 2, 28⟩ ∧
    (∀ (d : PyDate) (months : Nat), validDate d →
      1 ≤ (add_months d months).month ∧ (add_months d months).month ≤ 12 ∧
        1 ≤ (add_months d months).day ∧
        (add_months d months).day ≤
          daysInMonth (add_months d months).year (add_months d months).month) := by
  refine ⟨fun d months => rfl, by decide, by decide, ?_⟩
  intro d months hv
  obtain ⟨_, _, _, _, hd1, _⟩ := hv
  have hpos : 1 ≤ daysInMonth (d.year + (d.month - 1 + months) / 12)
      ((d.month - 1 + months) % 12 + 1) := by
    unfold daysInMonth
    split_ifs <;> omega
  have heq : add_months d months =
      { year := d.year + (d.month - 1 + months) / 12,
        month := (d.month - 1 + months) % 12 + 1,
        day := min d.day
          (daysInMonth (d.year + (d.month - 1 + months) / 12)
            ((d.month - 1 + months) % 12 + 1)) } := rfl
  rw [heq]
  refine ⟨?_, ?_, ?_, ?_⟩ <;> dsimp only <;> omega

/-- Witness for C4 (for the conjunct with a validity hypothesis):
the clamped day of 2024-01-31 + 1 month is a valid February day. -/
theorem C4_add_months_clamp_witness :
    validDate ⟨2024, 1, 31⟩ ∧ 1 ≤ (add_months ⟨2024, 1, 31⟩ 1).month ∧
      (add_months ⟨2024, 1, 31⟩ 1).day ≤
        daysInMonth (add_months ⟨2024, 1, 31⟩ 1).year (add_months ⟨2024, 1, 31⟩ 1).month :=
  ⟨by decide, (C4_add_months_clamp.2.2.2 ⟨2024, 1, 31⟩ 1 (by decide)).1,
    (C4_add_months_clamp.2.2.2 ⟨2024, 1, 31⟩ 1 (by decide)).2.2.2⟩

/-- Claim C7: `week_bounds` defaults its reference to the current date;
for every reference ordinal `o ≥ 1` (every real date has ordinal ≥ 1) it
returns `(monday, sunday)` with `monday = o - o.weekday()`,
`sunday = monday + 6`, `monday.weekday() = 0` and `monday ≤ o ≤ sunday`. -/
theorem C7_week_bounds_spec :
    (∀ t, week_bounds t none = week_bounds t (some t)) ∧
    (∀ t o, 1 ≤ o →
      (week_bounds t (some o)).1 = o - pyWeekday o ∧
      (week_bounds t (some o)).2 = (week_bounds t (some o)).1 + 6 ∧
      pyWeekday (week_bounds t (some o)).1 = 0 ∧
      (week_bounds t (some o)).1 ≤ o ∧ o ≤ (week_bounds t (some o)).2) := by
  refine ⟨fun t => rfl, ?_⟩
  intro t o ho
  refine ⟨?_, ?_, ?_, ?_, ?_⟩ <;>
    simp only [week_bounds, pyWeekday, Option.getD_some] <;> omega

/-- Witness for C7: the week containing ordinal of 2026-10-15 (a Thursday)
starts on a Monday not after it. -/
theorem C7_week_bounds_spec_witness :
    1 ≤ toOrdinal ⟨2026, 10, 15⟩ ∧
      pyWeekday ((week_bounds 0 (some (toOrdinal ⟨2026, 10, 15⟩))).1) = 0 ∧
      (week_bounds 0 (some (toOrdinal ⟨2026, 10, 15⟩))).1 ≤ toOrdinal ⟨2026, 10, 15⟩ :=
  ⟨by decide,
    (C7_week_bounds_spec.2 0 (toOrdinal ⟨2026, 10, 15⟩) (by decide)).2.2.1,
    (C7_week_bounds_spec.2 0 (toOrdinal ⟨2026, 10, 15⟩) (by decide)).2.2.2.1⟩

/-- Claim C8: `parse_ymd` is total: every input yields either a valid date
or `None` (the source catches every exception); a `None` date degrades the
next-inspection computation to `None`, and an unknown frequency string
likewise yields no interval — no error is raised in either case. -/
theorem C8_parse_robust :
    (∀ s, parse_ymd s = none ∨ ∃ dt, parse_ymd s = some dt ∧ validDate dt) ∧
    (∀ s f, parse_ymd s = none → compute_next (parse_ymd s) f = none) ∧
    (∀ lt s, FREQ_MONTHS s = none → compute_next lt (some s) = none) := by
  refine ⟨?_, ?_, compute_next_unknown⟩
  · intro s
    simp only [parse_ymd]
    split
    · exact Or.inl rfl
    · split
      · rename_i y m d _
        cases h : makeDate y m d with
        | none => exact Or.inl rfl
        | some dt => exact Or.inr ⟨dt, rfl, makeDate_valid h⟩
      · exact Or.inl rfl
  · intro s f h
    rw [h]
    rfl

/-- The mark-tested transition does not change the frequency, and its
stored next inspection is computed from today and that frequency. -/
theorem mark_tested_next_eq (m : Meter) (today : PyDate)
    (h2s reason note : PyStr) :
    (mark_tested_today m today h2s reason note).1.frequency = m.frequency ∧
      (mark_tested_today m today h2s reason note).1.next_inspection
        = compute_next (some today) m.frequency := by
  have hfr : (mark_tested_today m today h2s reason note).1.frequency
      = m.frequency := by
    unfold mark_tested_today
    dsimp only
    split <;> rfl
  refine ⟨hfr, ?_⟩
  calc (mark_tested_today m today h2s reason note).1.next_inspection
      = compute_next (some today)
          (mark_tested_today m today h2s reason note).1.frequency := rfl
    _ = compute_next (some today) m.frequency := by rw [hfr]

/-- Claim C1: after meter creation, meter edit or mark-tested, the stored
`next_inspection` equals `compute_next` of the stored `last_test_date` and
`frequency`; manual history add and history delete leave the meter row
(hence its `last_test_date`, `frequency` and `next_inspection`) untouched. -/
theorem C1_next_inspection_invariant :
    (∀ (f : MeterForm) (mt : Meter), (add_meter f).meter = some mt →
        mt.next_inspection = compute_next mt.last_test_date mt.frequency) ∧
    (∀ (m : Meter) (f : MeterForm),
        (edit_meter m f).1.next_inspection
          = compute_next (edit_meter m f).1.last_test_date
              (edit_meter m f).1.frequency) ∧
    (∀ (m : Meter) (today : PyDate) (h2s reason note : PyStr),
        (mark_tested_today m today h2s reason note).1.next_inspection
          = compute_next (mark_tested_today m today h2s reason note).1.last_test_date
              (mark_tested_today m today h2s reason note).1.frequency) ∧
    (∀ (m : Meter) (hist : List MeterHistory) (e h n : PyStr),
        (add_history m hist e h n).1 = m) ∧
    (∀ (m : Meter) (hist : List MeterHistory) (i : Nat),
        (delete_history m hist i).1 = m) := by
  refine ⟨?_, fun m f => rfl, fun m today h2s reason note => rfl, ?_, fun m hist i => rfl⟩
  · intro f mt h
    by_cases hn : pyStrip f.meter_name = []
    · simp [add_meter, hn] at h
    · simp only [add_meter, hn, if_neg] at h
      injection h with h'
      subst h'
      rfl
  · intro m hist e h n
    unfold add_history
    split <;> rfl

/-- Witness for C1: a concrete meter creation stores
`next_inspection = compute_next(last_test_date, frequency)`. -/
theorem C1_next_inspection_invariant_witness :
    ∃ mt, (add_meter f1).meter = some mt ∧
      mt.next_inspection = compute_next mt.last_test_date mt.frequency := by
  cases hm : (add_meter f1).meter with
  | none => exact absurd hm (by decide)
  | some mt => exact ⟨mt, rfl, C1_next_inspection_invariant.1 f1 mt hm⟩

/-- Claim C2: mark-tested overwrites the stored H2S value exactly when the
(stripped) submitted value is nonempty, sets `last_test_date` to today and
`next_inspection` to `compute_next(today, frequency)`, and appends exactly
one history row (the transition returns precisely one row by construction)
whose `event_date` is today, whose `h2s_ppm` is the submitted value or
null (never the previously stored value), whose `created_via` is
`"mark_tested"`, and whose notes are the reason (when given and not the
placeholder "—") with the note appended after an em-dash separator, or
"Marked tested" when neither was given, suffixed with " (no H2S sample)"
exactly when no H2S value was supplied.  `new_h2s`, `reason` and `note`
denote the stripped form values, as in the source (app.py:1028-1030). -/
theorem C2_mark_tested_spec :
    ∀ (m : Meter) (today : PyDate) (new_h2s reason note : PyStr),
      (mark_tested_today m today new_h2s reason note).1.h2s_ppm
          = (if pyStrip new_h2s = [] then m.h2s_ppm else some (pyStrip new_h2s)) ∧
      (mark_tested_today m today new_h2s reason note).1.last_test_date = some today ∧
      (mark_tested_today m today new_h2s reason note).1.next_inspection
          = compute_next (some today) m.frequency ∧
      (mark_tested_today m today new_h2s reason note).2.event_date = today ∧
      (mark_tested_today m today new_h2s reason note).2.h2s_ppm
          = (if pyStrip new_h2s = [] then none else some (pyStrip new_h2s)) ∧
      (mark_tested_today m today new_h2s reason note).2.created_via = pyS "mark_tested" ∧
      (pyStrip reason ≠ [] → pyStrip reason ≠ pyS "—" → pyStrip note ≠ [] →
        (mark_tested_today m today new_h2s reason note).2.notes
          = some (pyStrip reason ++ pyS " — " ++ pyStrip note)) ∧
      (pyStrip reason ≠ [] → pyStrip reason ≠ pyS "—" → pyStrip note = [] →
        (mark_tested_today m today new_h2s reason note).2.notes
          = some (pyStrip reason)) ∧
      ((pyStrip reason = [] ∨ pyStrip reason = pyS "—") → pyStrip note ≠ [] →
        (mark_tested_today m today new_h2s reason note).2.notes
          = some (pyStrip note)) ∧
      ((pyStrip reason = [] ∨ pyStrip reason = pyS "—") → pyStrip note = [] →
        (mark_tested_today m today new_h2s reason note).2.notes
          = some (pyS "Marked tested" ++
              (if pyStrip new_h2s = [] then pyS " (no H2S sample)" else []))) := by
  intro m today new_h2s reason note
  refine ⟨?_, rfl, ?_, rfl, ?_, rfl, ?_, ?_, ?_, ?_⟩
  · by_cases hh : pyStrip new_h2s = [] <;> simp [mark_tested_today, hh]
  · exact (mark_tested_next_eq m today new_h2s reason note).2
  · by_cases hh : pyStrip new_h2s = [] <;> simp [mark_tested_today, hh]
  · intro h1 h2 h3
    simp [mark_tested_today, h1, h2, h3, List.intercalate]
  · intro h1 h2 h3
    simp [mark_tested_today, h1, h2, h3, List.intercalate]
  · intro h1 h2
    rcases h1 with h1 | h1 <;> simp [mark_tested_today, h1, h2, List.intercalate]
  · intro h1 h2
    rcases h1 with h1 | h1 <;> simp [mark_tested_today, h1, h2, List.intercalate]

/-- Witness for C2: the spec example — H2S "12", reason "No flow", note
"recheck next week" yields notes "No flow — recheck next week", history
H2S "12", and the meter H2S field updated to "12". -/
theorem C2_mark_tested_spec_witness :
    (mark_tested_today m0 d0 (pyS "12") (pyS "No flow") (pyS "recheck next week")).2.notes
        = some (pyS "No flow — recheck next week") ∧
      (mark_tested_today m0 d0 (pyS "12") (pyS "No flow") (pyS "recheck next week")).2.h2s_ppm
        = some (pyS "12") ∧
      (mark_tested_today m0 d0 (pyS "12") (pyS "No flow") (pyS "recheck next week")).1.h2s_ppm
        = some (pyS "12") := by
  have h := C2_mark_tested_spec m0 d0 (pyS "12") (pyS "No flow") (pyS "recheck next week")
  exact ⟨((h.2.2.2.2.2.2.1 (by decide) (by decide) (by decide))).trans (by decide),
    h.2.2.2.2.1.trans (by decide), h.1.trans (by decide)⟩

/-- Claim C9: whenever the meter frequency maps to a month interval
(all four mapped intervals are positive), mark-tested leaves the meter with
`next_inspection` strictly after the transition date, whatever the prior
state of the meter. -/
theorem C9_mark_tested_future :
    ∀ (m : Meter) (today : PyDate) (h2s reason note : PyStr) (s : PyStr) (k : Nat),
      validDate today → m.frequency = some s → FREQ_MONTHS s = some k →
      (mark_tested_today m today h2s reason note).1.next_inspection
          = some (add_months today k) ∧
        dateLt today (add_months today k) := by
  intro m today h2s reason note s k hv hf hk
  have hnext : (mark_tested_today m today h2s reason note).1.next_inspection
      = compute_next (some today) m.frequency :=
    (mark_tested_next_eq m today h2s reason note).2
  rw [hnext, hf]
  obtain ⟨_, _, hm1, _, _, _⟩ := hv
  rcases FREQ_MONTHS_cases hk with ⟨rfl, rfl⟩ | ⟨rfl, rfl⟩ | ⟨rfl, rfl⟩ | ⟨rfl, rfl⟩ <;>
    exact ⟨rfl, add_months_lt today _ hm1 (by omega)⟩

/-- Witness for C9: marking the sample monthly meter tested on 2026-10-12
schedules the next inspection strictly later (2026-11-12). -/
theorem C9_mark_tested_future_witness :
    validDate d0 ∧ m0.frequency = some (pyS "Monthly") ∧
      (mark_tested_today m0 d0 [] [] []).1.next_inspection
        = some (add_months d0 1) ∧
      dateLt d0 (add_months d0 1) :=
  ⟨by decide, by decide,
    (C9_mark_tested_future m0 d0 [] [] [] (pyS "Monthly") 1
      (by decide) (by decide) (by decide)).1,
    (C9_mark_tested_future m0 d0 [] [] [] (pyS "Monthly") 1
      (by decide) (by decide) (by decide)).2⟩

/-- Claim C10: with the history checkbox set on meter creation or edit, a
history row (event date = the parsed submitted last-test date,
`created_via` "manual" for creation and "edit" for edit) is appended
exactly when the submitted date string parses; when it does not parse the
meter is still created or updated, no row is written, and no error is
reported. -/
theorem C10_hist_checkbox :
    (∀ (f : MeterForm) (ev : PyDate), f.hist_add = true →
        parse_ymd f.last_test_date = some ev → pyStrip f.meter_name ≠ [] →
        ∃ hrow, (add_meter f).hist = some hrow ∧ hrow.event_date = ev ∧
          hrow.created_via = pyS "manual") ∧
    (∀ f : MeterForm, parse_ymd f.last_test_date = none →
        (add_meter f).hist = none ∧
        (pyStrip f.meter_name ≠ [] →
          ((add_meter f).meter).isSome = true ∧ (add_meter f).error = none)) ∧
    (∀ f : MeterForm, f.hist_add = false → (add_meter f).hist = none) ∧
    (∀ (m : Meter) (f : MeterForm) (ev : PyDate), f.hist_add = true →
        parse_ymd f.last_test_date = some ev →
        ∃ hrow, (edit_meter m f).2 = some hrow ∧ hrow.event_date = ev ∧
          hrow.created_via = pyS "edit") ∧
    (∀ (m : Meter) (f : MeterForm), parse_ymd f.last_test_date = none →
        (edit_meter m f).2 = none) ∧
    (∀ (m : Meter) (f : MeterForm), f.hist_add = false →
        (edit_meter m f).2 = none) := by
  refine ⟨?_, ?_, ?_, ?_, ?_, ?_⟩
  · intro f ev ha hp hn
    have heq : (add_meter f).hist
        = some { event_date := ev, h2s_ppm := orNone f.h2s_ppm,
                 notes := orNone f.notes, created_via := pyS "manual" } := by
      simp [add_meter, hn, ha, hp]
    exact ⟨_, heq, rfl, rfl⟩
  · intro f hp
    constructor
    · by_cases hn : pyStrip f.meter_name = [] <;>
        simp [add_meter, hn, hp]
    · intro hn
      simp [add_meter, hn]
  · intro f ha
    by_cases hn : pyStrip f.meter_name = [] <;> simp [add_meter, hn, ha]
  · intro m f ev ha hp
    have heq : (edit_meter m f).2
        = some { event_date := ev, h2s_ppm := orNone f.h2s_ppm,
                 notes := orNone f.notes, created_via := pyS "edit" } := by
      simp [edit_meter, ha, hp]
    exact ⟨_, heq, rfl, rfl⟩
  · intro m f hp
    by_cases ha : f.hist_add <;> simp [edit_meter, ha, hp]
  · intro m f ha
    simp [edit_meter, ha]

/-- Witness for C10: the form `f1` (valid date, checkbox set) produces a
"manual" history row dated 2026-01-05; the form `f2` (month 13, does not
parse) still creates its meter, writes no history row, and reports no
error. -/
theorem C10_hist_checkbox_witness :
    (∃ hrow, (add_meter f1).hist = some hrow ∧
        hrow.event_date = ⟨2026, 1, 5⟩ ∧ hrow.created_via = pyS "manual") ∧
      (add_meter f2).hist = none ∧ ((add_meter f2).meter).isSome = true ∧
      (add_meter f2).error = none := by
  refine ⟨C10_hist_checkbox.1 f1 ⟨2026, 1, 5⟩ (by decide) (by decide) (by decide),
    (C10_hist_checkbox.2.1 f2 (by decide)).1,
    ((C10_hist_checkbox.2.1 f2 (by decide)).2 (by decide)).1,
    ((C10_hist_checkbox.2.1 f2 (by decide)).2 (by decide)).2⟩

/-- The SQL filter accepts a row exactly when the claim-side considered
predicate holds. -/
theorem duePass_iff (we : PyDate) (m : MeterRow) :
    duePass we m = true ↔ considered we m := by
  unfold duePass considered
  rcases m with ⟨i, fn, bn, mn, freq, ni, h2s⟩
  cases freq <;> cases ni <;> simp

/-- Membership in the sorted filtered list. -/
theorem mem_due_all {ms : List MeterRow} {we : PyDate} {m : MeterRow} :
    m ∈ due_all ms we ↔ m ∈ ms ∧ duePass we m = true := by
  unfold due_all
  rw [List.mem_insertionSort, List.mem_filter]

/-- Membership in the overdue list. -/
theorem mem_overdue {ms : List MeterRow} {ws we : PyDate} {m : MeterRow} :
    m ∈ overdue_list ms ws we ↔
      (m ∈ ms ∧ duePass we m = true) ∧
        ∃ d, m.next_inspection = some d ∧ dateLt d ws := by
  unfold overdue_list
  rw [List.mem_filter, mem_due_all]
  cases hn : m.next_inspection <;> simp [hn]

/-- Membership in the due-this-week list. -/
theorem mem_due_week {ms : List MeterRow} {ws we : PyDate} {m : MeterRow} :
    m ∈ due_week_list ms ws we ↔
      (m ∈ ms ∧ duePass we m = true) ∧
        ∃ d, m.next_inspection = some d ∧ dateLe ws d ∧ dateLe d we := by
  unfold due_week_list
  rw [List.mem_filter, mem_due_all]
  cases hn : m.next_inspection <;> simp [hn, and_assoc]

/-- Claim C5: the classifier considers exactly the meters with frequency
set, not "Out of Service", and a next inspection at most `week_end`; it
puts a considered meter in overdue iff its next inspection is before
`week_start`, in due-this-week iff the next inspection lies in the week —
a disjoint and exhaustive partition of the considered set — and meters
past `week_end` appear in neither list. -/
theorem C5_classifier_partition :
    ∀ (ms : List MeterRow) (ws we : PyDate) (m : MeterRow),
      (m ∈ overdue_list ms ws we ↔
        m ∈ ms ∧ considered we m ∧
          ∃ d, m.next_inspection = some d ∧ dateLt d ws) ∧
      (m ∈ due_week_list ms ws we ↔
        m ∈ ms ∧ considered we m ∧
          ∃ d, m.next_inspection = some d ∧ dateLe ws d ∧ dateLe d we) ∧
      ¬(m ∈ overdue_list ms ws we ∧ m ∈ due_week_list ms ws we) ∧
      (m ∈ ms → considered we m →
        m ∈ overdue_list ms ws we ∨ m ∈ due_week_list ms ws we) ∧
      (∀ d, m.next_inspection = some d → dateLt we d →
        m ∉ overdue_list ms ws we ∧ m ∉ due_week_list ms ws we) := by
  intro ms ws we m
  have ho := @mem_overdue ms ws we m
  have hw := @mem_due_week ms ws we m
  refine ⟨?_, ?_, ?_, ?_, ?_⟩
  · rw [ho, duePass_iff, and_assoc]
  · rw [hw, duePass_iff, and_assoc]
  · rintro ⟨h1, h2⟩
    obtain ⟨-, d, hd, hlt⟩ := ho.mp h1
    obtain ⟨-, d', hd', hge, -⟩ := hw.mp h2
    rw [hd] at hd'
    injection hd' with hdd
    subst hdd
    exact absurd hlt (not_lt.mpr hge)
  · intro hm hc
    obtain ⟨hf1, hf2, d, hd, hle⟩ := hc
    rcases lt_or_le (dkey d) (dkey ws) with hlt | hge
    · exact Or.inl (ho.mpr ⟨⟨hm, (duePass_iff we m).mpr ⟨hf1, hf2, d, hd, hle⟩⟩,
        d, hd, hlt⟩)
    · exact Or.inr (hw.mpr ⟨⟨hm, (duePass_iff we m).mpr ⟨hf1, hf2, d, hd, hle⟩⟩,
        d, hd, hge, hle⟩)
  · intro d hd hgt
    constructor
    · intro h1
      obtain ⟨⟨-, hp⟩, -⟩ := ho.mp h1
      obtain ⟨-, -, d', hd', hle⟩ := (duePass_iff we m).mp hp
      rw [hd] at hd'
      injection hd' with hdd
      subst hdd
      exact absurd hgt (not_lt.mpr hle)
    · intro h2
      obtain ⟨-, d', hd', -, hle⟩ := hw.mp h2
      rw [hd] at hd'
      injection hd' with hdd
      subst hdd
      exact absurd hgt (not_lt.mpr hle)

/-- Witness for C5: the spec test — next inspections the day before the
week (overdue), two days into the week (due) and five days past it
(excluded) are classified exactly so. -/
theorem C5_classifier_partition_witness :
    q1 ∈ overdue_list [q1, q2, q3] ws0 we0 ∧
      q2 ∈ due_week_list [q1, q2, q3] ws0 we0 ∧
      q3 ∉ overdue_list [q1, q2, q3] ws0 we0 ∧
      q3 ∉ due_week_list [q1, q2, q3] ws0 we0 := by
  refine ⟨?_, ?_,
    ((C5_classifier_partition [q1, q2, q3] ws0 we0 q3).2.2.2.2
      ⟨2026, 2, 13⟩ (by decide) (by decide)).1,
    ((C5_classifier_partition [q1, q2, q3] ws0 we0 q3).2.2.2.2
      ⟨2026, 2, 13⟩ (by decide) (by decide)).2⟩
  · exact (C5_classifier_partition [q1, q2, q3] ws0 we0 q1).1.mpr
      ⟨by decide, ⟨by decide, by decide, ⟨2026, 2, 1⟩, by decide, by decide⟩,
        ⟨2026, 2, 1⟩, by decide, by decide⟩
  · exact (C5_classifier_partition [q1, q2, q3] ws0 we0 q2).2.1.mpr
      ⟨by decide, ⟨by decide, by decide, ⟨2026, 2, 4⟩, by decide, by decide⟩,
        ⟨2026, 2, 4⟩, by decide, by decide, by decide⟩

/-- Sorted lists with pairwise-distinct keys are strictly sorted. -/
theorem sorted_strict_of_distinct {l : List MeterRow}
    (hs : l.Sorted rowLe) (hne : l.Pairwise fun a b => mkey a ≠ mkey b) :
    l.Sorted rowLt := by
  have := List.Pairwise.and hs hne
  exact this.imp fun h => lt_of_le_of_ne h.1 h.2

/-- Claim C6 (amended): both output lists are sorted ascending by the
tuple (field name, battery name, next inspection, meter name), names
compared case-sensitively by code point; and the output is independent of
the storage order provided no two considered meters share the whole sort
key.  (Without that proviso the claim fails: Python `sorted` is stable, so
rows that tie on the whole key keep storage order — see the
counterexample.) -/
theorem C6_sorted_deterministic :
    (∀ (ms : List MeterRow) (ws we : PyDate),
      (overdue_list ms ws we).Sorted rowLe ∧
        (due_week_list ms ws we).Sorted rowLe) ∧
    (∀ (ms₁ ms₂ : List MeterRow) (ws we : PyDate), ms₁.Perm ms₂ →
      ((ms₁.filter (duePass we)).Pairwise fun a b => mkey a ≠ mkey b) →
      overdue_list ms₁ ws we = overdue_list ms₂ ws we ∧
        due_week_list ms₁ ws we = due_week_list ms₂ ws we) := by
  constructor
  · intro ms ws we
    have hs : (due_all ms we).Sorted rowLe :=
      List.sorted_insertionSort rowLe (ms.filter (duePass we))
    exact ⟨List.Pairwise.filter _ hs, List.Pairwise.filter _ hs⟩
  · intro ms₁ ms₂ ws we hp hne₁
    have hf : (ms₁.filter (duePass we)).Perm (ms₂.filter (duePass we)) :=
      hp.filter _
    have hperm : (due_all ms₁ we).Perm (due_all ms₂ we) :=
      ((List.perm_insertionSort rowLe _).trans hf).trans
        (List.perm_insertionSort rowLe _).symm
    have hpw₁ : (due_all ms₁ we).Pairwise fun a b => mkey a ≠ mkey b :=
      ((List.perm_insertionSort rowLe (ms₁.filter (duePass we))).pairwise_iff
        (fun h e => h e.symm)).mpr hne₁
    have hpw₂ : (due_all ms₂ we).Pairwise fun a b => mkey a ≠ mkey b :=
      (hperm.pairwise_iff (fun h e => h e.symm)).mp hpw₁
    have hs₁ : (due_all ms₁ we).Sorted rowLt :=
      sorted_strict_of_distinct (List.sorted_insertionSort rowLe _) hpw₁
    have hs₂ : (due_all ms₂ we).Sorted rowLt :=
      sorted_strict_of_distinct (List.sorted_insertionSort rowLe _) hpw₂
    have heq : due_all ms₁ we = due_all ms₂ we :=
      List.eq_of_perm_of_sorted hperm hs₁ hs₂
    constructor
    · unfold overdue_list
      rw [heq]
    · unfold due_week_list
      rw [heq]

/-- Witness for C6 (amended): the two distinct-key rows `q1`, `q2` produce
identical lists from either storage order. -/
theorem C6_sorted_deterministic_witness :
    overdue_list [q1, q2] ws0 we0 = overdue_list [q2, q1] ws0 we0 ∧
      due_week_list [q1, q2] ws0 we0 = due_week_list [q2, q1] ws0 we0 :=
  C6_sorted_deterministic.2 [q1, q2] [q2, q1] ws0 we0
    (List.Perm.swap q2 q1 []) (by decide)

/-- Counterexample to C6 as stated: `r1` and `r2` are two meters that tie
on the whole sort key (same field, battery, next inspection and name) but
are distinct rows (different database ids).  They form the same meter set
in either order, yet the overdue list of the stable sort returns them in
storage order, so the two permutations yield different output lists. -/
theorem C6_counterexample :
    List.Perm [r1, r2] [r2, r1] ∧
      overdue_list [r1, r2] ws0 we0 ≠ overdue_list [r2, r1] ws0 we0 :=
  ⟨List.Perm.swap r2 r1 [], by decide⟩

/-- Witness for C8: an unparseable date string and an unknown frequency
string both degrade to no next inspection. -/
theorem C8_parse_robust_witness :
    parse_ymd (pyS "not-a-date") = none ∧
      compute_next (parse_ymd (pyS "not-a-date")) (some (pyS "Monthly")) = none ∧
      FREQ_MONTHS (pyS "Biweekly") = none ∧
      compute_next (some ⟨2024, 3, 15⟩) (some (pyS "Biweekly")) = none :=
  ⟨by decide,
    C8_parse_robust.2.1 (pyS "not-a-date") (some (pyS "Monthly")) (by decide),
    by decide,
    C8_parse_robust.2.2 (some ⟨2024, 3, 15⟩) (pyS "Biweekly") (by decide)⟩
